import Mathlib

/-!
# Verification of the rustledger.github.io playground control layer

Shallow embedding of the asynchronous worker-RPC bridge and the
validation/query/autocomplete pipeline of the rustledger playground
(`src/utils.js`, `src/wasm.js`, `src/main.js`, `src/editor.js`,
`src/query.js`), together with theorems settling the specification's
claims about it.

Strings are modelled as Lean `String`/`List Char`; JavaScript numbers
that hold page indices or line numbers are modelled as `Nat`/`Int`;
DOM writes are modelled as values recorded in explicit state records.
-/

set_option maxHeartbeats 1000000
set_option maxRecDepth 100000

namespace RustLedger

/-! ## JavaScript string primitives -/

/-- JavaScript `str.replace(/c/g, r)` for a single-character pattern `c`:
every occurrence of `c` is replaced by `r`, all other characters kept. -/
def charReplace (c : Char) (r : List Char) : List Char → List Char
  | [] => []
  | ch :: t => (if ch = c then r else [ch]) ++ charReplace c r t

/-- `sub` is a prefix of `l` (JavaScript `String.prototype.startsWith`). -/
def isPrefixOfL : List Char → List Char → Bool
  | [], _ => true
  | _ :: _, [] => false
  | a :: s, b :: t => a == b && isPrefixOfL s t

/-- `sub` occurs as a contiguous substring of `l`
(JavaScript `String.prototype.includes`). -/
def containsSubL : List Char → List Char → Bool
  | [], sub => sub.isEmpty
  | b :: t, sub => isPrefixOfL sub (b :: t) || containsSubL t sub

/-- JavaScript `s.includes(pat)`. -/
def strIncludes (s pat : String) : Bool :=
  containsSubL s.data pat.data

/-- The double-quote character (written via its code point to keep the
development free of quote literals). -/
def qchar : Char := Char.ofNat 34

/-- The apostrophe character. -/
def achar : Char := Char.ofNat 39

/-! ## `escapeHtml` (src/utils.js lines 8-15)

```js
export function escapeHtml(text) {
    return text
        .replace(/&/g, 'AMP-entity')
        .replace(/</g, 'LT-entity')
        .replace(/>/g, 'GT-entity')
        .replace(/QUOT/g, 'QUOT-entity')
        .replace(/APOS/g, 'APOS-entity');
}
```
-/

/-- `escapeHtml` on character lists: the five sequential global replaces of
the source, in source order (`&` first, then `<`, `>`, `"`, `'`). -/
def escapeHtmlL (l : List Char) : List Char :=
  charReplace achar "&#039;".data
    (charReplace qchar "&quot;".data
      (charReplace '>' "&gt;".data
        (charReplace '<' "&lt;".data
          (charReplace '&' "&amp;".data l))))

/-- `escapeHtml` from src/utils.js. -/
def escapeHtml (s : String) : String :=
  String.mk (escapeHtmlL s.data)

/-- Per-character escape: what `escapeHtml` emits for one input character. -/
def escChar (c : Char) : List Char :=
  if c = '&' then "&amp;".data
  else if c = '<' then "&lt;".data
  else if c = '>' then "&gt;".data
  else if c = qchar then "&quot;".data
  else if c = achar then "&#039;".data
  else [c]

/-- Concatenation of per-character escapes. -/
def escCharsL : List Char → List Char
  | [] => []
  | c :: t => escChar c ++ escCharsL t

theorem charReplace_append (c : Char) (r : List Char) (a b : List Char) :
    charReplace c r (a ++ b) = charReplace c r a ++ charReplace c r b := by
  induction a with
  | nil => rfl
  | cons h t ih => simp [charReplace, ih]

theorem escapeHtmlL_append (a b : List Char) :
    escapeHtmlL (a ++ b) = escapeHtmlL a ++ escapeHtmlL b := by
  simp [escapeHtmlL, charReplace_append]

theorem escapeHtmlL_single (c : Char) : escapeHtmlL [c] = escChar c := by
  by_cases h1 : c = '&'
  · subst h1; decide
  · by_cases h2 : c = '<'
    · subst h2; decide
    · by_cases h3 : c = '>'
      · subst h3; decide
      · by_cases h4 : c = qchar
        · subst h4; decide
        · by_cases h5 : c = achar
          · subst h5; decide
          · simp [escapeHtmlL, charReplace, escChar, h1, h2, h3, h4, h5]

theorem escapeHtmlL_eq_escCharsL (l : List Char) :
    escapeHtmlL l = escCharsL l := by
  induction l with
  | nil => rfl
  | cons c t ih =>
    have : c :: t = [c] ++ t := rfl
    rw [this, escapeHtmlL_append, escapeHtmlL_single, ih]
    rfl

/-! ### Safety properties of the escaped output -/

/-- The output contains none of the four markup-delimiting characters. -/
def htmlSafe (l : List Char) : Prop :=
  '<' ∉ l ∧ '>' ∉ l ∧ qchar ∉ l ∧ achar ∉ l

/-- The five entities `escapeHtml` can produce. -/
def entities : List (List Char) :=
  ["&amp;".data, "&lt;".data, "&gt;".data, "&quot;".data, "&#039;".data]

/-- Every ampersand in `l` begins one of the five produced entities. -/
def ampOk : List Char → Prop
  | [] => True
  | c :: t => (c = '&' → ∃ e ∈ entities, ∃ rest, e ++ rest = c :: t) ∧ ampOk t

theorem htmlSafe_append (a b : List Char)
    (ha : htmlSafe a) (hb : htmlSafe b) : htmlSafe (a ++ b) := by
  obtain ⟨a1, a2, a3, a4⟩ := ha
  obtain ⟨b1, b2, b3, b4⟩ := hb
  refine ⟨?_, ?_, ?_, ?_⟩ <;> simp only [List.mem_append] <;> tauto

theorem htmlSafe_escChar (c : Char) : htmlSafe (escChar c) := by
  by_cases e1 : c = '&'
  · subst e1; exact ⟨by decide, by decide, by decide, by decide⟩
  by_cases e2 : c = '<'
  · subst e2; exact ⟨by decide, by decide, by decide, by decide⟩
  by_cases e3 : c = '>'
  · subst e3; exact ⟨by decide, by decide, by decide, by decide⟩
  by_cases e4 : c = qchar
  · subst e4; exact ⟨by decide, by decide, by decide, by decide⟩
  by_cases e5 : c = achar
  · subst e5; exact ⟨by decide, by decide, by decide, by decide⟩
  simp only [escChar, if_neg e1, if_neg e2, if_neg e3, if_neg e4, if_neg e5]
  refine ⟨?_, ?_, ?_, ?_⟩ <;> simp only [List.mem_singleton] <;> intro h <;>
    first
      | exact e2 h.symm
      | exact e3 h.symm
      | exact e4 h.symm
      | exact e5 h.symm

theorem htmlSafe_escCharsL (l : List Char) : htmlSafe (escCharsL l) := by
  induction l with
  | nil => exact ⟨by decide, by decide, by decide, by decide⟩
  | cons c t ih => exact htmlSafe_append _ _ (htmlSafe_escChar c) ih

theorem ampOk_escChar_append (c : Char) (t : List Char)
    (ht : ampOk t) : ampOk (escChar c ++ t) := by
  by_cases e1 : c = '&'
  · subst e1
    show ampOk ('&' :: 'a' :: 'm' :: 'p' :: ';' :: t)
    exact ⟨fun _ => ⟨"&amp;".data, by decide, t, rfl⟩,
      fun h => absurd h (by decide), fun h => absurd h (by decide),
      fun h => absurd h (by decide), fun h => absurd h (by decide), ht⟩
  by_cases e2 : c = '<'
  · subst e2
    show ampOk ('&' :: 'l' :: 't' :: ';' :: t)
    exact ⟨fun _ => ⟨"&lt;".data, by decide, t, rfl⟩,
      fun h => absurd h (by decide), fun h => absurd h (by decide),
      fun h => absurd h (by decide), ht⟩
  by_cases e3 : c = '>'
  · subst e3
    show ampOk ('&' :: 'g' :: 't' :: ';' :: t)
    exact ⟨fun _ => ⟨"&gt;".data, by decide, t, rfl⟩,
      fun h => absurd h (by decide), fun h => absurd h (by decide),
      fun h => absurd h (by decide), ht⟩
  by_cases e4 : c = qchar
  · subst e4
    show ampOk ('&' :: 'q' :: 'u' :: 'o' :: 't' :: ';' :: t)
    exact ⟨fun _ => ⟨"&quot;".data, by decide, t, rfl⟩,
      fun h => absurd h (by decide), fun h => absurd h (by decide),
      fun h => absurd h (by decide), fun h => absurd h (by decide),
      fun h => absurd h (by decide), ht⟩
  by_cases e5 : c = achar
  · subst e5
    show ampOk ('&' :: '#' :: '0' :: '3' :: '9' :: ';' :: t)
    exact ⟨fun _ => ⟨"&#039;".data, by decide, t, rfl⟩,
      fun h => absurd h (by decide), fun h => absurd h (by decide),
      fun h => absurd h (by decide), fun h => absurd h (by decide),
      fun h => absurd h (by decide), ht⟩
  simp only [escChar, if_neg e1, if_neg e2, if_neg e3, if_neg e4, if_neg e5,
    List.singleton_append]
  exact ⟨fun h => absurd h e1, ht⟩

theorem ampOk_escCharsL (l : List Char) : ampOk (escCharsL l) := by
  induction l with
  | nil => trivial
  | cons c t ih => exact ampOk_escChar_append c (escCharsL t) ih

/-- C9: for every input string `s`, `escapeHtml s` contains no occurrence of
the characters `<`, `>`, double quote or apostrophe, and every `&` in the
output begins one of the five produced entities
(`&amp;` `&lt;` `&gt;` `&quot;` `&#039;`); hence text interpolated into markup
through `escapeHtml` cannot introduce HTML tags or attribute delimiters. -/
theorem escapeHtml_markup_safe (s : String) :
    htmlSafe (escapeHtml s).data ∧ ampOk (escapeHtml s).data := by
  have h : (escapeHtml s).data = escCharsL s.data := escapeHtmlL_eq_escCharsL s.data
  rw [h]
  exact ⟨htmlSafe_escCharsL _, ampOk_escCharsL _⟩

/-! ## Transport and engine client (src/wasm.js)

Module-level mutable state of `src/wasm.js` as an explicit record; promises
created by `sendMessage` are tracked by their correlation id together with
their settlement status.  `worker.postMessage`/`worker.terminate` have no
observable effect on this state beyond what the record captures.
-/

/-- Settlement status of a JavaScript promise created by `sendMessage`. -/
inductive PromiseState where
  | pending
  | resolved (payload : String)
  | rejected (msg : String)
deriving DecidableEq

/-- Module state of src/wasm.js: `worker` (alive or null), `wasmReady`,
`wasmError`, `wasmVersion`, `messageId`, and the `pendingRequests` table
(list of ids that hold a live resolve/reject entry).  `promises` records the
settlement status of every table-registered request ever created. -/
structure WasmState where
  workerAlive : Bool
  wasmReady : Bool
  wasmError : Option String
  wasmVersion : String
  messageId : Nat
  pending : List Nat
  promises : List (Nat × PromiseState)
deriving DecidableEq

/-- Status of the promise with correlation id `id`, if one was registered. -/
def promiseStatus (st : WasmState) (id : Nat) : Option PromiseState :=
  (st.promises.find? (fun p => p.1 == id)).map (fun p => p.2)

/-- `sendMessage` (src/wasm.js lines 41-53): with no worker the returned
promise is rejected at once and nothing is registered; otherwise a fresh id
is taken, a pending entry stored, and the message posted.  Returns the new
state, the registered id (if any) and the promise's immediate status. -/
def sendMessage (st : WasmState) : WasmState × Option Nat × PromiseState :=
  if st.workerAlive then
    let id := st.messageId
    ({ st with
        messageId := id + 1
        pending := st.pending ++ [id]
        promises := st.promises ++ [(id, PromiseState.pending)] },
      some id, PromiseState.pending)
  else
    (st, none, PromiseState.rejected "Worker not initialized")

/-- Inbound worker message envelope
`{id?, type: ready|result|error, result?, error?, version?}`. -/
inductive MsgType where
  | ready
  | result
  | error
deriving DecidableEq

/-- A worker message; absent fields are `none`.  `version` is `none` when the
field is absent or empty (JavaScript `version || 'unknown'` treats both the
same way). -/
structure WorkerMsg where
  id : Option Nat
  type : MsgType
  result : Option String
  error : Option String
  version : Option String
deriving DecidableEq

/-- Settle the registered promise `id` with status `ps`. -/
def settlePromise (promises : List (Nat × PromiseState)) (id : Nat)
    (ps : PromiseState) : List (Nat × PromiseState) :=
  promises.map (fun p => if p.1 == id then (p.1, ps) else p)

/-- `handleWorkerMessage` (src/wasm.js lines 59-85). -/
def handleWorkerMessage (st : WasmState) (m : WorkerMsg) : WasmState :=
  if m.type = MsgType.ready then
    { st with
        wasmReady := true
        wasmVersion := m.version.getD "unknown"
        wasmError := none }
  else if m.type = MsgType.error ∧ m.id = none then
    { st with wasmReady := false, wasmError := m.error }
  else
    match m.id with
    | none => st
    | some id =>
      if id ∈ st.pending then
        { st with
            pending := st.pending.erase id
            promises := settlePromise st.promises id
              (if m.type = MsgType.error then
                PromiseState.rejected (m.error.getD "")
              else PromiseState.resolved (m.result.getD "")) }
      else st

/-- `terminateWorker` (src/wasm.js lines 346-352): terminate the worker,
null the reference and clear the ready flag.  The `pendingRequests` table is
not touched. -/
def terminateWorker (st : WasmState) : WasmState :=
  if st.workerAlive then
    { st with workerAlive := false, wasmReady := false }
  else st

/-- A booted engine state with no requests yet. -/
def bootedState : WasmState :=
  { workerAlive := true, wasmReady := true, wasmError := none,
    wasmVersion := "0.1.0", messageId := 0, pending := [], promises := [] }

/-- C2 counterexample: call `sendMessage` on a booted engine (one entry is
now pending under id 0), then `terminateWorker`.  The pending-request table
still holds id 0 — it is not drained — and the call's promise is still
pending, not rejected, refuting the claim at this concrete input. -/
theorem terminateWorker_pending_counterexample :
    (terminateWorker (sendMessage bootedState).1).pending = [0] ∧
    promiseStatus (terminateWorker (sendMessage bootedState).1) 0 =
      some PromiseState.pending ∧
    ([0] : List Nat) ≠ [] := by
  refine ⟨rfl, rfl, by decide⟩

/-- C2 (amended): `terminateWorker` destroys the worker and clears the ready
flag, but leaves the pending-request table and every registered promise's
status untouched — pending engine calls are neither rejected nor drained. -/
theorem terminateWorker_preserves_pending (st : WasmState) :
    (terminateWorker st).pending = st.pending ∧
    (terminateWorker st).promises = st.promises ∧
    (terminateWorker st).workerAlive = false ∧
    (st.workerAlive = true → (terminateWorker st).wasmReady = false) := by
  by_cases h : st.workerAlive
  · simp [terminateWorker, h]
  · simp [terminateWorker, h]

/-- Witness for `terminateWorker_preserves_pending` at the concrete state
produced by one `sendMessage` on a booted engine. -/
theorem terminateWorker_preserves_pending_witness :
    (terminateWorker (sendMessage bootedState).1).pending = [0] ∧
    (terminateWorker (sendMessage bootedState).1).promises =
      [(0, PromiseState.pending)] ∧
    (terminateWorker (sendMessage bootedState).1).workerAlive = false ∧
    (terminateWorker (sendMessage bootedState).1).wasmReady = false := by
  obtain ⟨h1, h2, h3, h4⟩ :=
    terminateWorker_preserves_pending (sendMessage bootedState).1
  exact ⟨h1, h2, h3, h4 rfl⟩

/-! ## `initWasm` boot retry logic (src/wasm.js lines 91-197, src/config.js) -/

/-- `WASM_MAX_RETRIES` from src/config.js. -/
def WASM_MAX_RETRIES : Nat := 3

/-- `WASM_BASE_DELAY` (ms) from src/config.js. -/
def WASM_BASE_DELAY : Nat := 1000

/-- `formatWasmError` (src/wasm.js lines 180-197). -/
def formatWasmError (error : String) : String :=
  let userMessage := "Failed to load the WASM module. "
  if strIncludes error "Failed to fetch" || strIncludes error "NetworkError" then
    userMessage ++ "Please check your internet connection and try refreshing the page."
  else if strIncludes error "CompileError" || strIncludes error "instantiate" then
    userMessage ++ "Your browser may not support WebAssembly. Please try using a modern browser like Chrome, Firefox, Safari, or Edge."
  else if strIncludes error "Out of memory" || strIncludes error "OOM" then
    userMessage ++ "Your device ran out of memory. Please close some browser tabs and try again."
  else
    userMessage ++ "Please try refreshing the page. If the problem persists, try a different browser."

/-- The non-retryable test of `initWasm` (src/wasm.js line 160):
`errorMsg.includes('CompileError') || errorMsg.includes('not support WebAssembly')`. -/
def nonRetryable (msg : String) : Bool :=
  strIncludes msg "CompileError" || strIncludes msg "not support WebAssembly"

/-- The retry loop of `initWasm` (src/wasm.js lines 150-172), driven by an
oracle of per-attempt outcomes: `none` means `attemptWasmInit` resolved,
`some msg` means it rejected with message `msg` (already user-formatted by
`attemptWasmInit`, or the raw timeout message).  Each consumed entry is one
worker teardown-and-recreate.  Returns the overall result, the number of
attempts made, and the list of backoff delays slept (`rest.isEmpty` encodes
`attempt = maxRetries`, i.e. the loop's final iteration). -/
def initWasmLoop : List (Option String) → Option String → Nat → Nat →
    Except String Unit × Nat × List Nat
  | [], lastErr, _, _ =>
    (Except.error (lastErr.getD "Failed to initialize WASM after retries"), 0, [])
  | o :: rest, _, baseDelay, attempt =>
    match o with
    | none => (Except.ok (), 1, [])
    | some msg =>
      if nonRetryable msg then (Except.error msg, 1, [])
      else if rest.isEmpty then (Except.error msg, 1, [])
      else
        let r := initWasmLoop rest (some msg) baseDelay (attempt + 1)
        (r.1, r.2.1 + 1, baseDelay * 2 ^ attempt :: r.2.2)

/-- `initWasm` (src/wasm.js lines 143-173): at most `maxRetries + 1`
attempts; returns immediately when the engine is already ready. -/
def initWasm (attempts : List (Option String)) (maxRetries baseDelay : Nat)
    (alreadyReady : Bool) : Except String Unit × Nat × List Nat :=
  if alreadyReady then (Except.ok (), 0, [])
  else initWasmLoop (attempts.take (maxRetries + 1)) none baseDelay 0

theorem isPrefixOfL_append_self (a b : List Char) :
    isPrefixOfL a (a ++ b) = true := by
  induction a with
  | nil => rfl
  | cons c t ih => simp [isPrefixOfL, ih]

theorem containsSubL_nil_sub (l : List Char) : containsSubL l [] = true := by
  cases l <;> simp [containsSubL, isPrefixOfL, List.isEmpty]

theorem containsSubL_of_parts (pre sub post : List Char) :
    containsSubL (pre ++ (sub ++ post)) sub = true := by
  induction pre with
  | nil =>
    cases sub with
    | nil => exact containsSubL_nil_sub _
    | cons c t =>
      simp only [List.nil_append, List.cons_append, containsSubL, Bool.or_eq_true]
      exact Or.inl (isPrefixOfL_append_self (c :: t) post)
  | cons c t ih => simp [containsSubL, ih]

theorem initWasmLoop_nonretryable (msg : String) (rest : List (Option String))
    (lastErr : Option String) (baseDelay attempt : Nat)
    (h : nonRetryable msg = true) :
    initWasmLoop (some msg :: rest) lastErr baseDelay attempt =
      (Except.error msg, 1, []) := by
  simp [initWasmLoop, h]

theorem initWasmLoop_all_retryable (mlast : String)
    (hlast : nonRetryable mlast = false) :
    ∀ (msgs : List String) (lastErr : Option String) (baseDelay attempt : Nat),
      (∀ m ∈ msgs, nonRetryable m = false) →
      initWasmLoop ((msgs ++ [mlast]).map some) lastErr baseDelay attempt =
        (Except.error mlast, msgs.length + 1,
          (List.range msgs.length).map (fun k => baseDelay * 2 ^ (attempt + k))) := by
  intro msgs
  induction msgs with
  | nil =>
    intro lastErr baseDelay attempt _
    simp [initWasmLoop, hlast]
  | cons m t ih =>
    intro lastErr baseDelay attempt hall
    have hm : nonRetryable m = false := hall m (List.mem_cons_self m t)
    have ht : ∀ x ∈ t, nonRetryable x = false :=
      fun x hx => hall x (List.mem_cons_of_mem m hx)
    have hne : ((t ++ [mlast]).map some).isEmpty = false := by
      cases t <;> simp
    show initWasmLoop (some m :: (t ++ [mlast]).map some) lastErr baseDelay attempt = _
    rw [initWasmLoop]
    simp only [hm, hne, Bool.false_eq_true, if_false]
    rw [ih (some m) baseDelay (attempt + 1) ht]
    simp only [List.length_cons, List.range_succ_eq_map, List.map_cons,
      List.map_map]
    refine congrArg _ (congrArg _ ?_)
    simp [Function.comp]
    intro a _
    exact Or.inl (by omega)

/-- C3: classification and backoff of `initWasm`.
(1) A first attempt failing with a non-retryable message (one containing
`CompileError` or `not support WebAssembly`) is rethrown immediately: one
attempt, no backoff delays.
(2) A raw boot error in the compile/unsupported-runtime class (and not in
the network class checked first) is formatted by `formatWasmError` into a
message that carries the user-facing prefix and is classified non-retryable.
(3) When every attempt fails retryably, the loop makes `maxRetries + 1`
attempts, sleeping `baseDelay * 2 ^ attempt` before each retry, and throws
the last error only after all attempts fail. -/
theorem initWasm_retry_policy :
    (∀ (msg : String) (rest : List (Option String)) (maxRetries baseDelay : Nat),
        nonRetryable msg = true →
        initWasm (some msg :: rest) maxRetries baseDelay false =
          (Except.error msg, 1, [])) ∧
    (∀ raw : String,
        (strIncludes raw "Failed to fetch" || strIncludes raw "NetworkError") = false →
        (strIncludes raw "CompileError" || strIncludes raw "instantiate") = true →
        nonRetryable (formatWasmError raw) = true ∧
        isPrefixOfL "Failed to load the WASM module. ".data
          (formatWasmError raw).data = true) ∧
    (∀ (msgs : List String) (mlast : String) (baseDelay : Nat),
        (∀ m ∈ msgs, nonRetryable m = false) → nonRetryable mlast = false →
        initWasm ((msgs ++ [mlast]).map some) msgs.length baseDelay false =
          (Except.error mlast, msgs.length + 1,
            (List.range msgs.length).map (fun k => baseDelay * 2 ^ k))) := by
  refine ⟨?_, ?_, ?_⟩
  · intro msg rest maxRetries baseDelay h
    show initWasmLoop ((some msg :: rest).take (maxRetries + 1)) none baseDelay 0 = _
    rw [List.take_succ_cons]
    exact initWasmLoop_nonretryable msg _ none baseDelay 0 h
  · intro raw hnet hcompile
    have hfmt : formatWasmError raw =
        "Failed to load the WASM module. " ++
        "Your browser may not support WebAssembly. Please try using a modern browser like Chrome, Firefox, Safari, or Edge." := by
      simp [formatWasmError, hnet, hcompile]
    constructor
    · have hdata : (formatWasmError raw).data =
          ("Failed to load the WASM module. Your browser may ".data) ++
          ("not support WebAssembly".data ++
            (". Please try using a modern browser like Chrome, Firefox, Safari, or Edge.".data)) := by
        rw [hfmt]; rfl
      unfold nonRetryable strIncludes
      rw [hdata, containsSubL_of_parts]
      simp
    · rw [hfmt]
      have : ("Failed to load the WASM module. " ++
          "Your browser may not support WebAssembly. Please try using a modern browser like Chrome, Firefox, Safari, or Edge.").data =
          "Failed to load the WASM module. ".data ++
          "Your browser may not support WebAssembly. Please try using a modern browser like Chrome, Firefox, Safari, or Edge.".data := by
        rfl
      rw [this]
      exact isPrefixOfL_append_self _ _
  · intro msgs mlast baseDelay hall hlast
    have hlen : ((msgs ++ [mlast]).map some).length = msgs.length + 1 := by
      simp
    show initWasmLoop (((msgs ++ [mlast]).map some).take (msgs.length + 1))
        none baseDelay 0 = _
    rw [← hlen, List.take_length]
    have := initWasmLoop_all_retryable mlast hlast msgs none baseDelay 0 hall
    simpa using this

/-- Witness for `initWasm_retry_policy`: each conjunct applied at concrete
inputs — a `CompileError` message aborts after one attempt; the raw error
`CompileError: bad` formats to a non-retryable user-facing message; two
retryable failures with `maxRetries = 1`, `baseDelay = 7` make two attempts
with a single 7 ms delay. -/
theorem initWasm_retry_policy_witness :
    initWasm [some "CompileError", some "x"] 3 1000 false =
      (Except.error "CompileError", 1, []) ∧
    (nonRetryable (formatWasmError "CompileError: bad") = true ∧
      isPrefixOfL "Failed to load the WASM module. ".data
        (formatWasmError "CompileError: bad").data = true) ∧
    initWasm [some "timeout a", some "timeout b"] 1 7 false =
      (Except.error "timeout b", 2, [7]) := by
  refine ⟨?_, ?_, ?_⟩
  · exact initWasm_retry_policy.1 "CompileError" [some "x"] 3 1000 (by decide)
  · exact initWasm_retry_policy.2.1 "CompileError: bad" (by decide) (by decide)
  · have := initWasm_retry_policy.2.2 ["timeout a"] "timeout b" 7
      (by intro m hm; simp at hm; subst hm; decide) (by decide)
    simpa using this

/-! ## Result paginator and query runner (src/main.js lines 1302-1418)

Rows are modelled positionally (the `Array.isArray(row)` branch of the
renderer); the query output DOM node is modelled as a `QueryDisplay` value
recorded in the UI state.
-/

/-- `QUERY_PAGE_SIZE` (src/main.js line 1303). -/
def QUERY_PAGE_SIZE : Nat := 100

/-- `currentQueryResult` contents (src/main.js lines 1305-1306). -/
structure StoredResult where
  rows : List (List String)
  headers : List String
  elapsed : String
deriving DecidableEq

/-- JavaScript `arr.slice(start, end)` for `0 ≤ start ≤ end`. -/
def jsSlice (l : List (List String)) (s e : Nat) : List (List String) :=
  (l.drop s).take (e - s)

/-- JavaScript `Math.ceil(totalRows / QUERY_PAGE_SIZE)` on a whole number
of rows. -/
def totalPagesOf (totalRows : Nat) : Nat :=
  (totalRows + QUERY_PAGE_SIZE - 1) / QUERY_PAGE_SIZE

/-- What one call of `renderQueryPage` writes into `#query-output`:
the requested slice and the pagination stats shown with it
(`Showing startIdx+1 - endIdx of totalRows rows`). -/
structure RenderedPage where
  pageRows : List (List String)
  headers : List String
  startIdx : Nat
  endIdx : Nat
  totalRows : Nat
  totalPages : Nat
  page : Nat
deriving DecidableEq

/-- `renderQueryPage` (src/main.js lines 1312-1368) on a stored result. -/
def renderQueryPage (r : StoredResult) (page : Nat) : RenderedPage :=
  let totalRows := r.rows.length
  let totalPages := totalPagesOf totalRows
  let startIdx := page * QUERY_PAGE_SIZE
  let endIdx := min (startIdx + QUERY_PAGE_SIZE) totalRows
  { pageRows := jsSlice r.rows startIdx endIdx
    headers := r.headers
    startIdx := startIdx
    endIdx := endIdx
    totalRows := totalRows
    totalPages := totalPages
    page := page }

/-- Contents of the `#query-output` node. -/
inductive QueryDisplay where
  | table (p : RenderedPage) (elapsed : String)
  | errorMsg (e : String)
  | noResults (elapsed : String)
deriving DecidableEq

/-- Query-related UI state of src/main.js: the stored result and the query
output node's contents (`none` = never written). -/
structure QueryUI where
  currentQueryResult : Option StoredResult
  display : Option QueryDisplay
deriving DecidableEq

/-- `goToQueryPage` (src/main.js lines 1374-1379): no stored result or an
out-of-bounds page is a silent no-op; otherwise the page is rendered. -/
def goToQueryPage (st : QueryUI) (page : Int) : QueryUI :=
  match st.currentQueryResult with
  | none => st
  | some r =>
    if page < 0 ∨ page ≥ (totalPagesOf r.rows.length : Int) then st
    else
      { st with
          display :=
            some (QueryDisplay.table (renderQueryPage r page.toNat) r.elapsed) }

/-- The engine's `QueryResult` as consumed by `runQuery`. -/
structure EngineQueryResult where
  rows : List (List String)
  columns : Option (List String)
  error : Option String
deriving DecidableEq

/-- `result.columns || Object.keys(result.rows[0])` (src/main.js line 1400);
`Object.keys` of a positional row array yields its index strings. -/
def headersOf (result : EngineQueryResult) : List String :=
  result.columns.getD ((List.range (result.rows.headD []).length).map toString)

/-- The `currentQueryResult` stored by a successful `runQuery`. -/
def storedOf (result : EngineQueryResult) (elapsed : String) : StoredResult :=
  { rows := result.rows, headers := headersOf result, elapsed := elapsed }

/-- The response-application tail of `runQuery` (src/main.js lines
1396-1410): the code run once `await executeQuery` has resolved with a
non-null result and `#query-output` exists.  There is no version or
staleness check — the response overwrites `currentQueryResult` and the
query output unconditionally. -/
def applyQueryResult (st : QueryUI) (result : EngineQueryResult)
    (elapsed : String) : QueryUI :=
  match result.error with
  | some e =>
    { currentQueryResult := none, display := some (QueryDisplay.errorMsg e) }
  | none =>
    if 0 < result.rows.length then
      let stored := storedOf result elapsed
      { currentQueryResult := some stored
        display := some (QueryDisplay.table (renderQueryPage stored 0) elapsed) }
    else
      { currentQueryResult := none
        display := some (QueryDisplay.noResults elapsed) }

/-- C4: with a stored query result, `goToQueryPage n` for `n < 0` or
`n ≥ ⌈rows.length / 100⌉` performs no render and no error — the whole UI
state, displayed page included, is returned unchanged (the model is a total
function, so no fault occurs) — while for `0 ≤ n < ⌈rows.length / 100⌉` it
renders page `n` of the stored result. -/
theorem goToQueryPage_bounds (st : QueryUI) (r : StoredResult)
    (hr : st.currentQueryResult = some r) (n : Int) :
    ((n < 0 ∨ n ≥ (totalPagesOf r.rows.length : Int)) → goToQueryPage st n = st) ∧
    (0 ≤ n → n < (totalPagesOf r.rows.length : Int) →
      goToQueryPage st n =
        { st with
            display :=
              some (QueryDisplay.table (renderQueryPage r n.toNat) r.elapsed) }) := by
  constructor
  · intro h
    simp only [goToQueryPage, hr]
    rw [if_pos h]
  · intro h1 h2
    simp only [goToQueryPage, hr]
    rw [if_neg (by omega)]

/-- A concrete two-row stored result (one page). -/
def storedEx : StoredResult :=
  { rows := [["a"], ["b"]], headers := ["h"], elapsed := "1.0" }

/-- A query UI holding `storedEx`. -/
def uiEx : QueryUI := { currentQueryResult := some storedEx, display := none }

/-- Witness for `goToQueryPage_bounds`: on a stored 2-row result
(1 page), pages `-1` and `7` are no-ops and page `0` renders. -/
theorem goToQueryPage_bounds_witness :
    goToQueryPage uiEx (-1) = uiEx ∧
    goToQueryPage uiEx 7 = uiEx ∧
    goToQueryPage uiEx 0 =
      { uiEx with
          display :=
            some (QueryDisplay.table (renderQueryPage storedEx 0)
              storedEx.elapsed) } := by
  refine ⟨?_, ?_, ?_⟩
  · exact (goToQueryPage_bounds uiEx storedEx rfl (-1)).1 (by decide)
  · exact (goToQueryPage_bounds uiEx storedEx rfl 7).1 (by decide)
  · exact (goToQueryPage_bounds uiEx storedEx rfl 0).2 (by decide) (by decide)

/-- C5: with a stored result of 250 rows and page size 100, page 0 shows
rows 1-100 (`startIdx = 0`, `endIdx = 100`, slice = first 100 rows), page 2
shows rows 201-250 (`startIdx = 200`, `endIdx = 250`, slice = rows 201-250),
and the total page count is 3; in general rendering recomputes only the
requested slice (`pageRows` is exactly `rows.slice(startIdx, endIdx)`), and
storing a new query result always renders page 0 first. -/
theorem renderQueryPage_pagination (r : StoredResult)
    (h : r.rows.length = 250) :
    ((renderQueryPage r 0).pageRows = r.rows.take 100 ∧
      (renderQueryPage r 0).startIdx = 0 ∧
      (renderQueryPage r 0).endIdx = 100 ∧
      (renderQueryPage r 0).totalPages = 3) ∧
    ((renderQueryPage r 2).pageRows = (r.rows.drop 200).take 50 ∧
      (renderQueryPage r 2).startIdx = 200 ∧
      (renderQueryPage r 2).endIdx = 250 ∧
      (renderQueryPage r 2).totalPages = 3) ∧
    (∀ (r' : StoredResult) (page : Nat),
      (renderQueryPage r' page).pageRows =
        jsSlice r'.rows (page * QUERY_PAGE_SIZE)
          (min (page * QUERY_PAGE_SIZE + QUERY_PAGE_SIZE) r'.rows.length)) ∧
    (∀ (st : QueryUI) (result : EngineQueryResult) (elapsed : String),
      result.error = none → 0 < result.rows.length →
      applyQueryResult st result elapsed =
        { currentQueryResult := some (storedOf result elapsed)
          display :=
            some (QueryDisplay.table
              (renderQueryPage (storedOf result elapsed) 0) elapsed) }) := by
  refine ⟨?_, ?_, ?_, ?_⟩
  · refine ⟨?_, rfl, ?_, ?_⟩
    · simp [renderQueryPage, jsSlice, h, QUERY_PAGE_SIZE]
    · simp [renderQueryPage, h, QUERY_PAGE_SIZE]
    · simp [renderQueryPage, totalPagesOf, h, QUERY_PAGE_SIZE]
  · refine ⟨?_, rfl, ?_, ?_⟩
    · simp [renderQueryPage, jsSlice, h, QUERY_PAGE_SIZE]
    · simp [renderQueryPage, h, QUERY_PAGE_SIZE]
    · simp [renderQueryPage, totalPagesOf, h, QUERY_PAGE_SIZE]
  · intro r' page
    rfl
  · intro st result elapsed herr hrows
    simp [applyQueryResult, herr, hrows]

/-- A concrete 250-row result: row `i` is `[toString i]`. -/
def stored250 : StoredResult :=
  { rows := (List.range 250).map (fun i => [toString i])
    headers := ["n"], elapsed := "1.0" }

/-- Witness for `renderQueryPage_pagination` at the concrete 250-row result
`stored250` and a concrete successful one-row engine response. -/
theorem renderQueryPage_pagination_witness :
    ((renderQueryPage stored250 0).pageRows = stored250.rows.take 100 ∧
      (renderQueryPage stored250 0).startIdx = 0 ∧
      (renderQueryPage stored250 0).endIdx = 100 ∧
      (renderQueryPage stored250 0).totalPages = 3) ∧
    ((renderQueryPage stored250 2).pageRows =
        (stored250.rows.drop 200).take 50 ∧
      (renderQueryPage stored250 2).startIdx = 200 ∧
      (renderQueryPage stored250 2).endIdx = 250 ∧
      (renderQueryPage stored250 2).totalPages = 3) := by
  have h : stored250.rows.length = 250 := by
    simp [stored250]
  have hp := renderQueryPage_pagination stored250 h
  exact ⟨hp.1, hp.2.1⟩

/-! ## Overlapping query invocations (C1)

`runQuery` (src/main.js lines 1385-1418) performs no version capture before
`await executeQuery` and no staleness comparison after it (the only
generation counter in the repository guards the document-symbols panel,
src/symbols.js line 123).  Whichever response is applied last overwrites the
query UI, regardless of which invocation was initiated last.
-/

/-- The initial query UI (nothing run yet). -/
def uiStart : QueryUI := { currentQueryResult := none, display := none }

/-- Response of the first-initiated overlapping query `Q1`. -/
def respQ1 : EngineQueryResult :=
  { rows := [["q1"]], columns := some ["c"], error := none }

/-- Response of the second-initiated overlapping query `Q2`. -/
def respQ2 : EngineQueryResult :=
  { rows := [["q2"]], columns := some ["c"], error := none }

/-- C1 counterexample: `Q1` is initiated, then `Q2`; `Q2`'s response is
applied first and `Q1`'s late response is applied afterwards (the in-flight
call completes and `runQuery` applies it with no staleness check).  The
final query output shows `Q1`'s table — an earlier-initiated invocation's
result — not `Q2`'s, refuting the claimed ordering guarantee at this
concrete interleaving. -/
theorem overlapping_queries_counterexample :
    (applyQueryResult (applyQueryResult uiStart respQ2 "1.0") respQ1 "2.0").display =
      some (QueryDisplay.table (renderQueryPage (storedOf respQ1 "2.0") 0) "2.0") ∧
    (applyQueryResult (applyQueryResult uiStart respQ2 "1.0") respQ1 "2.0").display ≠
      some (QueryDisplay.table (renderQueryPage (storedOf respQ2 "1.0") 0) "1.0") := by
  exact ⟨rfl, by decide⟩

/-- C1 (amended): with no staleness guard in `runQuery` or `liveValidate`,
the query UI after overlapping invocations reflects the invocation whose
engine response is *applied last* — which may be an earlier-initiated one.
Formally, applying a response overwrites the whole query UI state
irrespective of the state it finds (so the last-applied response alone
determines decorations of the query table), and in the concrete overlap of
`overlapping_queries_counterexample` the late `Q1` response wins. -/
theorem applyQueryResult_last_applied_wins (st st' : QueryUI)
    (result : EngineQueryResult) (elapsed : String) :
    applyQueryResult st result elapsed = applyQueryResult st' result elapsed := rfl

/-! ## Validation error annotations
(src/main.js lines 1113-1140, src/editor.js lines 449-463) -/

/-- One entry of `result.errors` from `validate`. -/
structure ValidationError where
  line : Nat
  message : String
deriving DecidableEq

/-- JavaScript `Set.add`: no duplicates, insertion order kept. -/
def setAdd (s : List Nat) (n : Nat) : List Nat :=
  if n ∈ s then s else s ++ [n]

/-- JavaScript `Map.set`: overwrite an existing key or append. -/
def mapSet (m : List (Nat × String)) (k : Nat) (v : String) :
    List (Nat × String) :=
  if (m.find? (fun p => p.1 == k)).isSome then
    m.map (fun p => if p.1 == k then (k, v) else p)
  else m ++ [(k, v)]

/-- JavaScript `Map.get` (`none` = `undefined`). -/
def mapGet (m : List (Nat × String)) (k : Nat) : Option String :=
  (m.find? (fun p => p.1 == k)).map (fun p => p.2)

/-- The error-collection loop of `liveValidate` (src/main.js lines
1114-1119): after clearing both containers, each error with a truthy line
number (nonzero — line 0 is falsy and skipped) is added to `errorLines` and
its message recorded in `errorMessages`. -/
def collectAnnotations (errors : List ValidationError) :
    List Nat × List (Nat × String) :=
  errors.foldl
    (fun acc err =>
      if err.line ≠ 0 then
        (setAdd acc.1 err.line, mapSet acc.2 err.line err.message)
      else acc)
    ([], [])

/-- The per-line decoration produced by `highlightErrorLines`:
`marked` = has class `cm-error-line`, `message` = `dataset.errorMessage`. -/
structure LineMark where
  line : Nat
  marked : Bool
  message : Option String
deriving DecidableEq

/-- `highlightErrorLines` (src/editor.js lines 449-463): iterate over the
document's `.cm-line` elements (1-based line numbers up to the line count);
a line is marked iff its number is in the set, with the map's message as
tooltip data; all other lines are unmarked.  Error line numbers beyond the
document's line count match no element and are silently ignored. -/
def highlightErrorLines (lineCount : Nat) (lines : List Nat)
    (messages : List (Nat × String)) : List LineMark :=
  (List.range lineCount).map (fun idx =>
    { line := idx + 1
      marked := lines.contains (idx + 1)
      message :=
        if lines.contains (idx + 1) then mapGet messages (idx + 1) else none })

/-- C6: for a validation result with errors on lines 2 and 5 the
error-annotation state holds exactly those two lines with their messages,
and the editor marks exactly those two lines; an error with line number 0 is
skipped by the collection loop, and a line number beyond the document's line
count produces no mark (both functions are total, so no fault occurs). -/
theorem validation_error_annotations (lineCount : Nat) (h5 : 5 ≤ lineCount)
    (m2 m5 : String) :
    collectAnnotations [⟨2, m2⟩, ⟨5, m5⟩] = ([2, 5], [(2, m2), (5, m5)]) ∧
    (∀ (errs : List ValidationError) (m : String),
      collectAnnotations (errs ++ [⟨0, m⟩]) = collectAnnotations errs) ∧
    (LineMark.mk 2 true (some m2) ∈
        highlightErrorLines lineCount [2, 5] [(2, m2), (5, m5)] ∧
      LineMark.mk 5 true (some m5) ∈
        highlightErrorLines lineCount [2, 5] [(2, m2), (5, m5)] ∧
      ∀ mk ∈ highlightErrorLines lineCount [2, 5] [(2, m2), (5, m5)],
        mk.marked = true → mk.line = 2 ∨ mk.line = 5) ∧
    (∀ (lines : List Nat) (messages : List (Nat × String)),
      ∀ mk ∈ highlightErrorLines lineCount lines messages,
        mk.line ≤ lineCount) := by
  refine ⟨rfl, ?_, ⟨?_, ?_, ?_⟩, ?_⟩
  · intro errs m
    simp [collectAnnotations, List.foldl_append]
  · exact List.mem_map.mpr ⟨1, List.mem_range.mpr (by omega), rfl⟩
  · exact List.mem_map.mpr ⟨4, List.mem_range.mpr (by omega), rfl⟩
  · intro mk hmk hmarked
    obtain ⟨idx, _, rfl⟩ := List.mem_map.mp hmk
    have h : (idx + 1) ∈ [2, 5] := by
      have := hmarked
      simpa [List.contains] using this
    simpa using h
  · intro lines messages mk hmk
    obtain ⟨idx, hidx, rfl⟩ := List.mem_map.mp hmk
    have := List.mem_range.mp hidx
    show idx + 1 ≤ lineCount
    omega

/-- Witness for `validation_error_annotations` in a 10-line document with
messages `bad account` and `bad amount`. -/
theorem validation_error_annotations_witness :
    collectAnnotations [⟨2, "bad account"⟩, ⟨5, "bad amount"⟩] =
      ([2, 5], [(2, "bad account"), (5, "bad amount")]) ∧
    LineMark.mk 2 true (some "bad account") ∈
      highlightErrorLines 10 [2, 5] [(2, "bad account"), (5, "bad amount")] := by
  have h := validation_error_annotations 10 (by decide) "bad account" "bad amount"
  exact ⟨h.1, h.2.2.1.1⟩

/-! ## Account-hierarchy coloring
(src/query.js lines 427-444, src/editor.js lines 167-241) -/

/-- The palette of `formatAccount` (src/query.js lines 429-435). -/
def queryAccountColors : List String :=
  ["text-cyan-400", "text-teal-300", "text-emerald-300", "text-amber-300",
    "text-orange-300"]

/-- `colors[Math.min(i, colors.length - 1)]` (src/query.js line 439). -/
def segColorClass (i : Nat) : String :=
  queryAccountColors.getD (min i (queryAccountColors.length - 1)) ""

/-- Split a character list at every occurrence of `c`
(JavaScript `str.split(c)` for a single-character separator). -/
def splitChar (c : Char) : List Char → List (List Char)
  | [] => [[]]
  | ch :: t =>
    match splitChar c t with
    | [] => [[ch]]
    | h :: rest => if ch = c then [] :: h :: rest else (ch :: h) :: rest

/-- JavaScript `account.split(':')`. -/
def splitColon (s : String) : List String :=
  (splitChar ':' s.data).map (fun l => String.mk l)

/-- `formatAccount` (src/query.js lines 427-444): split on `:`, wrap each
segment in a span colored by depth, and join with muted-colored colons. -/
def formatAccount (account : String) : String :=
  let parts := splitColon account
  String.join (parts.enum.map (fun p =>
    let colorClass := segColorClass p.1
    let separator :=
      if p.1 < parts.length - 1 then "<span class=\"text-white/50\">:</span>"
      else ""
    "<span class=\"" ++ colorClass ++ "\">" ++ escapeHtml p.2 ++ "</span>" ++
      separator))

/-- The (segment, color-class) pairs `formatAccount` emits. -/
def formatAccountSegments (account : String) : List (String × String) :=
  (splitColon account).enum.map (fun p => (p.2, segColorClass p.1))

/-- The editor-side palette (src/editor.js lines 167-174). -/
def accountColors : List String :=
  ["#22d3ee", "#5eead4", "#6ee7b7", "#fcd34d", "#fdba74"]

/-- `Math.min(i, accountDecorations.length - 1)` (src/editor.js line 225):
the palette index used for the segment at depth `i`. -/
def editorColorIndex (i : Nat) : Nat :=
  min i (accountColors.length - 1)

/-- C7: `formatAccount "Assets:Bank:Checking"` colors its 3 segments with
the first 3 palette classes — pairwise distinct — and renders both colon
separators with the single muted color (distinct from all three segment
colors), as the exact output HTML shows; and for any depth at or beyond the
palette length the color saturates at the last palette entry, in both the
query formatter and the editor decorator. -/
theorem formatAccount_hierarchy_colors :
    formatAccount "Assets:Bank:Checking" =
      "<span class=\"text-cyan-400\">Assets</span><span class=\"text-white/50\">:</span><span class=\"text-teal-300\">Bank</span><span class=\"text-white/50\">:</span><span class=\"text-emerald-300\">Checking</span>" ∧
    formatAccountSegments "Assets:Bank:Checking" =
      [("Assets", "text-cyan-400"), ("Bank", "text-teal-300"),
        ("Checking", "text-emerald-300")] ∧
    ("text-cyan-400" ≠ "text-teal-300" ∧ "text-cyan-400" ≠ "text-emerald-300" ∧
      "text-teal-300" ≠ "text-emerald-300" ∧ "text-white/50" ≠ "text-cyan-400" ∧
      "text-white/50" ≠ "text-teal-300" ∧ "text-white/50" ≠ "text-emerald-300") ∧
    (∀ i : Nat, queryAccountColors.length - 1 ≤ i →
      segColorClass i = "text-orange-300") ∧
    (∀ i : Nat, accountColors.length - 1 ≤ i →
      editorColorIndex i = accountColors.length - 1) := by
  refine ⟨by decide, by decide, by decide, ?_, ?_⟩
  · intro i hi
    have h : min i (queryAccountColors.length - 1) =
        queryAccountColors.length - 1 := min_eq_right hi
    rw [segColorClass, h]
    decide
  · intro i hi
    exact min_eq_right hi

/-- Witness for `formatAccount_hierarchy_colors`: saturation at depth 7. -/
theorem formatAccount_hierarchy_colors_witness :
    segColorClass 7 = "text-orange-300" ∧ editorColorIndex 7 = 4 := by
  exact ⟨formatAccount_hierarchy_colors.2.2.2.1 7 (by decide),
    formatAccount_hierarchy_colors.2.2.2.2 7 (by decide)⟩

/-! ## Account-path autocomplete (src/editor.js lines 808-871) -/

/-- JavaScript `s.toLowerCase()` (ASCII-faithful per-character lowering). -/
def jsToLower (s : String) : String :=
  String.mk (s.data.map Char.toLower)

/-- The `accountAutocomplete` session state (dropdown DOM omitted;
`active` models whether the dropdown is shown). -/
structure AccountAutocomplete where
  items : List String
  selectedIndex : Int
  startPos : Nat
  active : Bool
deriving DecidableEq

/-- `hideAccountAutocomplete` (src/editor.js lines 864-871). -/
def hideAccountAutocomplete (st : AccountAutocomplete) : AccountAutocomplete :=
  { st with active := false, items := [], selectedIndex := -1 }

/-- The candidate list computed by `showAccountAutocomplete`
(src/editor.js lines 814-817): case-insensitive substring filter, then
`slice(0, 10)`. -/
def filteredItems (accounts : List String) (filter : String) : List String :=
  (accounts.filter
    (fun a => strIncludes (jsToLower a) (jsToLower filter))).take 10

/-- `showAccountAutocomplete` (src/editor.js lines 808-861): filter and
truncate; an empty list closes the dropdown, otherwise the dropdown opens
with the first item selected and the token start remembered. -/
def showAccountAutocomplete (st : AccountAutocomplete)
    (accounts : List String) (filter : String) (startPos : Nat) :
    AccountAutocomplete :=
  let items := filteredItems accounts filter
  if items.isEmpty then hideAccountAutocomplete st
  else
    { items := items, selectedIndex := 0, startPos := startPos, active := true }

/-- C10: the account autocomplete never offers more than 10 candidates —
the candidate list is the case-insensitive substring filter of the known
accounts truncated to its first 10 entries; when the filtered list is empty
the dropdown is closed (and emptied), otherwise it opens on the filtered
list with the first item selected. -/
theorem showAccountAutocomplete_spec (st : AccountAutocomplete)
    (accounts : List String) (filter : String) (startPos : Nat) :
    (showAccountAutocomplete st accounts filter startPos).items.length ≤ 10 ∧
    ((filteredItems accounts filter).isEmpty = true →
      showAccountAutocomplete st accounts filter startPos =
        hideAccountAutocomplete st) ∧
    ((filteredItems accounts filter).isEmpty = false →
      showAccountAutocomplete st accounts filter startPos =
        { items := filteredItems accounts filter, selectedIndex := 0,
          startPos := startPos, active := true }) := by
  refine ⟨?_, ?_, ?_⟩
  · by_cases h : (filteredItems accounts filter).isEmpty
    · simp [showAccountAutocomplete, h, hideAccountAutocomplete]
    · simp only [showAccountAutocomplete, h, Bool.false_eq_true, if_false]
      show (filteredItems accounts filter).length ≤ 10
      simp [filteredItems, List.length_take]
  · intro h
    simp [showAccountAutocomplete, h]
  · intro h
    simp [showAccountAutocomplete, h]

/-- Witness for `showAccountAutocomplete_spec`: a blank session, two known
accounts; filter `cash` matches one account (case-insensitively) and opens
the dropdown, filter `zzz` matches none and closes it. -/
theorem showAccountAutocomplete_spec_witness :
    showAccountAutocomplete ⟨[], -1, 0, false⟩
        ["Assets:Cash", "Expenses:Food"] "cash" 3 =
      { items := ["Assets:Cash"], selectedIndex := 0, startPos := 3,
        active := true } ∧
    showAccountAutocomplete ⟨[], -1, 0, false⟩
        ["Assets:Cash", "Expenses:Food"] "zzz" 3 =
      hideAccountAutocomplete ⟨[], -1, 0, false⟩ := by
  constructor
  · have h := (showAccountAutocomplete_spec ⟨[], -1, 0, false⟩
      ["Assets:Cash", "Expenses:Food"] "cash" 3).2.2 (by decide)
    rw [h]
    decide
  · exact (showAccountAutocomplete_spec ⟨[], -1, 0, false⟩
      ["Assets:Cash", "Expenses:Food"] "zzz" 3).2.1 (by decide)

/-! ## `fetchWithRetry` (src/utils.js lines 101-199) -/

/-- A mocked HTTP response: the status code and the parsed integer values of
the three headers the retry logic consults (`none` = header absent, or not
parseable as an integer — `parseInt` yielding `NaN` takes the same branch as
an absent header). -/
structure MockResponse where
  status : Nat
  retryAfter : Option Int
  rateLimitReset : Option Int
  rateLimitRemaining : Option Int
deriving DecidableEq

/-- Outcome of one `fetch` call: a response, or a thrown error with its
`name` and message (`AbortError` = the timeout controller fired). -/
inductive FetchOutcome where
  | resp (r : MockResponse)
  | err (name msg : String)
deriving DecidableEq

/-- `getRetryDelay` (src/utils.js lines 101-124): a parseable `Retry-After`
(seconds) is preferred; else a future `X-RateLimit-Reset` Unix timestamp
waits until reset plus a 1s buffer, capped at 60s; else exponential
backoff `baseDelay * 2 ^ attempt`. -/
def getRetryDelay (r : MockResponse) (now : Int) (attempt baseDelay : Nat) :
    Int :=
  match r.retryAfter with
  | some seconds => seconds * 1000
  | none =>
    match r.rateLimitReset with
    | some resetTime =>
      let resetTimestamp := resetTime * 1000
      if resetTimestamp > now then min (resetTimestamp - now + 1000) 60000
      else ((baseDelay * 2 ^ attempt : Nat) : Int)
    | none => ((baseDelay * 2 ^ attempt : Nat) : Int)

/-- The per-attempt loop of `fetchWithRetry` (src/utils.js lines 142-196),
driven by an oracle of per-attempt fetch outcomes; `rest.isEmpty` encodes
`attempt = maxRetries` (the loop's final iteration).  Returns the overall
result (`Except.error` = the function throws), the number of fetch calls
issued, and the delays slept.  A 403 response with `X-RateLimit-Remaining`
parsed as 0 is treated like 429 and retried; 4xx responses other than 429
(and other than that rate-limit case) return immediately; 5xx and 429 are
retried while attempts remain, with `getRetryDelay`; thrown errors are
retried with plain exponential backoff, `AbortError` first converted to a
timeout error; the last error is thrown once all attempts fail.  (The
`[]` base case is the wrapper's fallback throw, unreachable when the oracle
supplies `maxRetries + 1` outcomes.) -/
def fetchLoop : List FetchOutcome → Option (String × String) → Int → Nat →
    Nat → Nat → Except (String × String) MockResponse × Nat × List Int
  | [], lastError, _, _, _, _ =>
    (Except.error (lastError.getD ("Error", "Failed to fetch after retries")),
      0, [])
  | o :: rest, lastError, now, baseDelay, attempt, timeout =>
    match o with
    | FetchOutcome.resp r =>
      if r.rateLimitRemaining = some 0 ∧ r.status = 403 ∧ ¬rest.isEmpty then
        let k := fetchLoop rest lastError now baseDelay (attempt + 1) timeout
        (k.1, k.2.1 + 1, getRetryDelay r now attempt baseDelay :: k.2.2)
      else if 400 ≤ r.status ∧ r.status < 500 ∧ r.status ≠ 429 then
        (Except.ok r, 1, [])
      else if (500 ≤ r.status ∨ r.status = 429) ∧ ¬rest.isEmpty then
        let k := fetchLoop rest lastError now baseDelay (attempt + 1) timeout
        (k.1, k.2.1 + 1, getRetryDelay r now attempt baseDelay :: k.2.2)
      else (Except.ok r, 1, [])
    | FetchOutcome.err name msg =>
      let e :=
        if name = "AbortError" then
          ("Error", "Request timed out after " ++ toString timeout ++ "ms")
        else (name, msg)
      if rest.isEmpty then (Except.error e, 1, [])
      else
        let k := fetchLoop rest (some e) now baseDelay (attempt + 1) timeout
        (k.1, k.2.1 + 1, ((baseDelay * 2 ^ attempt : Nat) : Int) :: k.2.2)

/-- `fetchWithRetry` (src/utils.js lines 137-199): at most
`maxRetries + 1` fetch calls, starting at attempt 0 with no last error. -/
def fetchWithRetry (outcomes : List FetchOutcome)
    (maxRetries baseDelay timeout : Nat) (now : Int) :
    Except (String × String) MockResponse × Nat × List Int :=
  fetchLoop (outcomes.take (maxRetries + 1)) none now baseDelay 0 timeout

/-- A response with the given status and no headers of interest. -/
def plainResp (status : Nat) : MockResponse :=
  { status := status, retryAfter := none, rateLimitReset := none,
    rateLimitRemaining := none }

/-- C8 counterexample: a 403 response carrying `X-RateLimit-Remaining: 0`
and `Retry-After: 1` is a 4xx response other than 429, yet `fetchWithRetry`
does not return it immediately — it sleeps the header delay and issues a
second fetch call, refuting "every other 4xx response is returned
immediately without retry" at this concrete input. -/
theorem fetchWithRetry_4xx_counterexample :
    fetchWithRetry
        [FetchOutcome.resp
          { status := 403, retryAfter := some 1, rateLimitReset := none,
            rateLimitRemaining := some 0 },
          FetchOutcome.resp (plainResp 200)] 3 1000 10000 0 =
      (Except.ok (plainResp 200), 2, [1000]) ∧
    (400 ≤ 403 ∧ 403 < 500 ∧ 403 ≠ 429) ∧
    (2 : Nat) ≠ 1 := by
  exact ⟨rfl, by decide, by decide⟩

/-- C8 (amended): status-code retry policy of `fetchWithRetry`.
(1) Against a 500 response then a 200 response it issues exactly 2 fetch
calls, the single retry delayed by `baseDelay * 2 ^ 0` (no retry headers
present).
(2) A 5xx or 429 response with attempts remaining sleeps
`getRetryDelay` — which prefers a parseable `Retry-After` header
(`seconds * 1000`) over the computed exponential backoff — and retries.
(3) Every other 4xx response — *except* a 403 whose
`X-RateLimit-Remaining` header parses to 0, which is treated like 429 and
retried — is returned immediately without retry. -/
theorem fetchWithRetry_status_policy :
    (∀ (baseDelay timeout : Nat) (now : Int),
      fetchWithRetry
          [FetchOutcome.resp (plainResp 500), FetchOutcome.resp (plainResp 200)]
          3 baseDelay timeout now =
        (Except.ok (plainResp 200), 2, [((baseDelay * 2 ^ 0 : Nat) : Int)])) ∧
    (∀ (r : MockResponse) (rest : List FetchOutcome)
        (lastError : Option (String × String)) (now : Int)
        (baseDelay attempt timeout : Nat),
      (500 ≤ r.status ∨ r.status = 429) → rest ≠ [] →
      fetchLoop (FetchOutcome.resp r :: rest) lastError now baseDelay attempt
          timeout =
        (let k := fetchLoop rest lastError now baseDelay (attempt + 1) timeout
         (k.1, k.2.1 + 1, getRetryDelay r now attempt baseDelay :: k.2.2))) ∧
    (∀ (r : MockResponse) (now : Int) (attempt baseDelay : Nat) (s : Int),
      r.retryAfter = some s →
      getRetryDelay r now attempt baseDelay = s * 1000) ∧
    (∀ (r : MockResponse) (rest : List FetchOutcome)
        (lastError : Option (String × String)) (now : Int)
        (baseDelay attempt timeout : Nat),
      400 ≤ r.status → r.status < 500 → r.status ≠ 429 →
      ¬(r.rateLimitRemaining = some 0 ∧ r.status = 403) →
      fetchLoop (FetchOutcome.resp r :: rest) lastError now baseDelay attempt
          timeout =
        (Except.ok r, 1, [])) := by
  refine ⟨?_, ?_, ?_, ?_⟩
  · intro baseDelay timeout now
    rfl
  · intro r rest lastError now baseDelay attempt timeout h hrest
    have h403 : r.status ≠ 403 := by rcases h with h | h <;> omega
    have hne : ¬rest.isEmpty := by
      cases rest with
      | nil => exact absurd rfl hrest
      | cons a t => simp
    rw [fetchLoop]
    rw [if_neg (fun hc => h403 hc.2.1)]
    rw [if_neg (by rcases h with h | h <;> omega)]
    rw [if_pos ⟨h, hne⟩]
  · intro r now attempt baseDelay s hs
    simp [getRetryDelay, hs]
  · intro r rest lastError now baseDelay attempt timeout h1 h2 h3 h4
    rw [fetchLoop]
    rw [if_neg (fun hc => h4 ⟨hc.1, hc.2.1⟩)]
    rw [if_pos ⟨h1, h2, h3⟩]

/-- Witness for `fetchWithRetry_status_policy`: concrete instances — the
500-then-200 scenario with `baseDelay = 5`; a 500 response carrying
`Retry-After: 2` retried after 2000 ms; a plain 404 returned after exactly
one fetch call with no delay. -/
theorem fetchWithRetry_status_policy_witness :
    fetchWithRetry
        [FetchOutcome.resp (plainResp 500), FetchOutcome.resp (plainResp 200)]
        3 5 1 0 =
      (Except.ok (plainResp 200), 2, [((5 * 2 ^ 0 : Nat) : Int)]) ∧
    getRetryDelay
        { status := 500, retryAfter := some 2, rateLimitReset := none,
          rateLimitRemaining := none } 0 0 7 = 2000 ∧
    fetchLoop [FetchOutcome.resp (plainResp 404)] none 0 7 0 9 =
      (Except.ok (plainResp 404), 1, []) := by
  refine ⟨?_, ?_, ?_⟩
  · exact fetchWithRetry_status_policy.1 5 1 0
  · have h := fetchWithRetry_status_policy.2.2.1
      { status := 500, retryAfter := some 2, rateLimitReset := none,
        rateLimitRemaining := none } 0 0 7 2 rfl
    simpa using h
  · exact fetchWithRetry_status_policy.2.2.2 (plainResp 404) [] none 0 7 0 9
      (by decide) (by decide) (by decide) (by decide)

end RustLedger
